import Mathlib

/-!
Verification of the volumetric-tunnel renderer.

The development shallowly embeds the CPU-side recycler logic of
`src/Scene.jsx`, the particle generator of the two `TunnelParticles`
variants, the GLSL functions of `src/shaders/glsl/volumetricLight.frag`
(`rayConeIntersect`, `getWorldPos`, `lightAttenuation`, `noise`, `main`)
and the screen-space god-rays kernel, over the real numbers.  Texture
lookups are modelled as function parameters, matrices as
`Matrix (Fin 4) (Fin 4) ℝ`.
-/

noncomputable section

open scoped BigOperators

/-- A 3-component vector of reals, standing for GLSL `vec3`. -/
structure V3 where
  x : ℝ
  y : ℝ
  z : ℝ

namespace V3

instance : Add V3 := ⟨fun a b => ⟨a.x + b.x, a.y + b.y, a.z + b.z⟩⟩
instance : Sub V3 := ⟨fun a b => ⟨a.x - b.x, a.y - b.y, a.z - b.z⟩⟩
instance : Neg V3 := ⟨fun a => ⟨-a.x, -a.y, -a.z⟩⟩
instance : SMul ℝ V3 := ⟨fun r a => ⟨r * a.x, r * a.y, r * a.z⟩⟩

@[simp] theorem add_x (a b : V3) : (a + b).x = a.x + b.x := rfl
@[simp] theorem add_y (a b : V3) : (a + b).y = a.y + b.y := rfl
@[simp] theorem add_z (a b : V3) : (a + b).z = a.z + b.z := rfl
@[simp] theorem sub_x (a b : V3) : (a - b).x = a.x - b.x := rfl
@[simp] theorem sub_y (a b : V3) : (a - b).y = a.y - b.y := rfl
@[simp] theorem sub_z (a b : V3) : (a - b).z = a.z - b.z := rfl
@[simp] theorem neg_x (a : V3) : (-a).x = -a.x := rfl
@[simp] theorem neg_y (a : V3) : (-a).y = -a.y := rfl
@[simp] theorem neg_z (a : V3) : (-a).z = -a.z := rfl
@[simp] theorem smul_x (r : ℝ) (a : V3) : (r • a).x = r * a.x := rfl
@[simp] theorem smul_y (r : ℝ) (a : V3) : (r • a).y = r * a.y := rfl
@[simp] theorem smul_z (r : ℝ) (a : V3) : (r • a).z = r * a.z := rfl

/-- GLSL `dot` on `vec3`. -/
def dot (a b : V3) : ℝ := a.x * b.x + a.y * b.y + a.z * b.z

/-- GLSL `length` on `vec3`. -/
def length (a : V3) : ℝ := Real.sqrt (dot a a)

/-- GLSL `normalize` on `vec3` (`v / length v`). -/
def normalize (a : V3) : V3 := ⟨a.x / length a, a.y / length a, a.z / length a⟩

theorem length_nonneg (a : V3) : 0 ≤ length a := Real.sqrt_nonneg _

end V3

/-- GLSL `radians`: degrees to radians. -/
def radians (deg : ℝ) : ℝ := deg * Real.pi / 180

theorem radians_sixty : radians 60 = Real.pi / 3 := by
  unfold radians; ring

theorem cos_radians_sixty : Real.cos (radians 60) = 1 / 2 := by
  rw [radians_sixty, Real.cos_pi_div_three]

/-- The shader's `MAX_DIST` no-intersection sentinel (`#define MAX_DIST 100.0`). -/
def MAX_DIST : ℝ := 100

/-- The coefficient `a` of `rayConeIntersect`
(`dot(rayDir, coneDir) - cos(radians(coneAngle)) * length(rayDir)`,
`volumetricLight.frag` line 31). -/
def coneA (rayDir coneDir : V3) (coneAngle : ℝ) : ℝ :=
  V3.dot rayDir coneDir - Real.cos (radians coneAngle) * rayDir.length

/-- The coefficient `b` of `rayConeIntersect`
(`dot(rayOrigin - coneOrigin, coneDir) - cos(radians(coneAngle)) * length(rayOrigin - coneOrigin)`,
`volumetricLight.frag` lines 30 and 32). -/
def coneB (rayOrigin coneOrigin coneDir : V3) (coneAngle : ℝ) : ℝ :=
  V3.dot (rayOrigin - coneOrigin) coneDir -
    Real.cos (radians coneAngle) * (rayOrigin - coneOrigin).length

/-- The function `rayConeIntersect` from `volumetricLight.frag` lines 29-36:
returns `0` when `a ≥ 0 ∧ b ≥ 0`, `-b/a` when `a < 0 ∧ b > 0`,
and the `MAX_DIST` sentinel otherwise. -/
def rayConeIntersect (rayOrigin rayDir coneOrigin coneDir : V3) (coneAngle : ℝ) : ℝ :=
  let a := coneA rayDir coneDir coneAngle
  let b := coneB rayOrigin coneOrigin coneDir coneAngle
  if 0 ≤ a ∧ 0 ≤ b then 0
  else if a < 0 ∧ 0 < b then -b / a
  else MAX_DIST

/- ### Tunnel recycler (`Scene.jsx` `useFrame`, lines 168-189) -/

/-- The wraparound of one segment offset after the per-frame increment:
`if (position >= 30) position = -30` (`Scene.jsx` lines 178-179). -/
def wrapOffset (p : ℝ) : ℝ := if 30 ≤ p then -30 else p

/-- One recycler advance: both segment offsets are incremented by `2 * delta`
(`Scene.jsx` lines 170-171) and then wrapped. -/
def advance (s : ℝ × ℝ) (delta : ℝ) : ℝ × ℝ :=
  (wrapOffset (s.1 + 2 * delta), wrapOffset (s.2 + 2 * delta))

/-- Iterated recycler advance over a list of frame deltas. -/
def advanceAll (s : ℝ × ℝ) : List ℝ → ℝ × ℝ
  | [] => s
  | d :: ds => advanceAll (advance s d) ds

/-- The initial segment offsets `section1Position = 0`, `section2Position = -30`
(`Scene.jsx` lines 20-21). -/
def initOffsets : ℝ × ℝ := (0, -30)

/-- The offset interval maintained by the recycler. -/
def offsetsInRange (s : ℝ × ℝ) : Prop :=
  -30 ≤ s.1 ∧ s.1 < 30 ∧ -30 ≤ s.2 ∧ s.2 < 30

theorem wrapOffset_mem {p : ℝ} (h : -30 ≤ p) :
    -30 ≤ wrapOffset p ∧ wrapOffset p < 30 := by
  unfold wrapOffset
  by_cases h30 : 30 ≤ p
  · rw [if_pos h30]; norm_num
  · rw [if_neg h30]; exact ⟨h, lt_of_not_le h30⟩

theorem advance_mem {s : ℝ × ℝ} {d : ℝ} (hs : offsetsInRange s) (hd : 0 ≤ d) :
    offsetsInRange (advance s d) := by
  obtain ⟨h1, _, h2, _⟩ := hs
  have g1 := wrapOffset_mem (p := s.1 + 2 * d) (by linarith)
  have g2 := wrapOffset_mem (p := s.2 + 2 * d) (by linarith)
  exact ⟨g1.1, g1.2, g2.1, g2.2⟩

theorem advanceAll_mem :
    ∀ (ds : List ℝ) (s : ℝ × ℝ), offsetsInRange s → (∀ d ∈ ds, 0 ≤ d) →
      offsetsInRange (advanceAll s ds) := by
  intro ds
  induction ds with
  | nil => intro s hs _; exact hs
  | cons d ds ih =>
      intro s hs hd
      exact ih _ (advance_mem hs (hd d (List.mem_cons_self d ds)))
        (fun e he => hd e (List.mem_cons_of_mem d he))

/- ### Claim C1 -/

/-- Claim C1, corrected: when both cone coefficients `a` and `b` are
non-negative, `rayConeIntersect` returns `0`, not the `MAX_DIST` sentinel
(the caller's guard `intersect > 0.0` still treats `0` as no contribution). -/
theorem c1_rayConeIntersect_nonneg_coeffs (rayOrigin rayDir coneOrigin coneDir : V3)
    (coneAngle : ℝ) (ha : 0 ≤ coneA rayDir coneDir coneAngle)
    (hb : 0 ≤ coneB rayOrigin coneOrigin coneDir coneAngle) :
    rayConeIntersect rayOrigin rayDir coneOrigin coneDir coneAngle = 0 := by
  unfold rayConeIntersect
  exact if_pos ⟨ha, hb⟩

theorem length_unitZ : V3.length ⟨0, 0, 1⟩ = 1 := by
  unfold V3.length V3.dot
  norm_num

/-- Claim C1, counterexample to the claim as stated: for the ray from
`(0,0,1)` in direction `(0,0,1)` against the cone at the origin with axis
`(0,0,1)` and half-angle `60°`, both coefficients are non-negative, yet
`rayConeIntersect` returns `0`, which differs from the `MAX_DIST` sentinel. -/
theorem c1_counterexample :
    0 ≤ coneA ⟨0, 0, 1⟩ ⟨0, 0, 1⟩ 60 ∧
    0 ≤ coneB ⟨0, 0, 1⟩ ⟨0, 0, 0⟩ ⟨0, 0, 1⟩ 60 ∧
    rayConeIntersect ⟨0, 0, 1⟩ ⟨0, 0, 1⟩ ⟨0, 0, 0⟩ ⟨0, 0, 1⟩ 60 = 0 ∧
    (0 : ℝ) ≠ MAX_DIST := by
  have hsub : (⟨0, 0, 1⟩ - ⟨0, 0, 0⟩ : V3) = ⟨0, 0, 1⟩ := by
    show (⟨0 - 0, 0 - 0, 1 - 0⟩ : V3) = ⟨0, 0, 1⟩
    norm_num
  have ha : 0 ≤ coneA ⟨0, 0, 1⟩ ⟨0, 0, 1⟩ 60 := by
    unfold coneA
    rw [cos_radians_sixty, length_unitZ]
    unfold V3.dot
    norm_num
  have hb : 0 ≤ coneB ⟨0, 0, 1⟩ ⟨0, 0, 0⟩ ⟨0, 0, 1⟩ 60 := by
    unfold coneB
    rw [hsub, cos_radians_sixty, length_unitZ]
    unfold V3.dot
    norm_num
  refine ⟨ha, hb, c1_rayConeIntersect_nonneg_coeffs _ _ _ _ _ ha hb, by
    unfold MAX_DIST; norm_num⟩

/-- Claim C1, witness: the corrected theorem applied at the concrete
inputs of the counterexample configuration. -/
theorem c1_witness :
    0 ≤ coneA ⟨0, 0, 1⟩ ⟨0, 0, 1⟩ 60 ∧
    0 ≤ coneB ⟨0, 0, 2⟩ ⟨0, 0, 0⟩ ⟨0, 0, 1⟩ 60 ∧
    rayConeIntersect ⟨0, 0, 2⟩ ⟨0, 0, 1⟩ ⟨0, 0, 0⟩ ⟨0, 0, 1⟩ 60 = 0 := by
  have hsub : (⟨0, 0, 2⟩ - ⟨0, 0, 0⟩ : V3) = ⟨0, 0, 2⟩ := by
    show (⟨0 - 0, 0 - 0, 2 - 0⟩ : V3) = ⟨0, 0, 2⟩
    norm_num
  have hlen : V3.length ⟨0, 0, 2⟩ = 2 := by
    unfold V3.length V3.dot
    norm_num
    rw [show (4 : ℝ) = 2 ^ 2 by norm_num]
    exact Real.sqrt_sq (by norm_num)
  have ha : 0 ≤ coneA ⟨0, 0, 1⟩ ⟨0, 0, 1⟩ 60 := by
    unfold coneA
    rw [cos_radians_sixty, length_unitZ]
    unfold V3.dot
    norm_num
  have hb : 0 ≤ coneB ⟨0, 0, 2⟩ ⟨0, 0, 0⟩ ⟨0, 0, 1⟩ 60 := by
    unfold coneB
    rw [hsub, cos_radians_sixty, hlen]
    unfold V3.dot
    norm_num
  exact ⟨ha, hb, c1_rayConeIntersect_nonneg_coeffs _ _ _ _ _ ha hb⟩

/- ### Claim C2 -/

/-- Claim C2, amended: after any number of recycler advances with
non-negative frame deltas, both segment offsets lie in `[-30, 30)`
(the recycler's bound, `Scene.jsx` lines 178-179).  The exact-difference
part of the claim is refuted by `c2_counterexample`. -/
theorem c2_offsets_in_range (ds : List ℝ) (hd : ∀ d ∈ ds, 0 ≤ d) :
    offsetsInRange (advanceAll initOffsets ds) := by
  refine advanceAll_mem ds initOffsets ?_ hd
  unfold offsetsInRange initOffsets
  norm_num

/-- Claim C2, counterexample: a single advance with `deltaTime = 15.5`
wraps segment 1 (hard reset to `-30`, discarding the overshoot `1`)
while segment 2 moves to `1`; the offsets then differ by `31`.  Since
both offsets always lie in `[-30, 30)`, a difference of exactly `30`
modulo the wraparound period `60` means a difference of `30` or `-30`,
and `31` is neither. -/
theorem c2_counterexample :
    (advanceAll initOffsets [15.5]).2 - (advanceAll initOffsets [15.5]).1 = 31 ∧
    (31 : ℝ) ≠ 30 ∧ (31 : ℝ) ≠ -30 := by
  have h : advanceAll initOffsets [15.5] = (-30, 1) := by
    show advance initOffsets 15.5 = (-30, 1)
    unfold advance initOffsets wrapOffset
    norm_num
  rw [h]
  norm_num

/-- Claim C2, witness: the amended theorem applied to the single-frame
sequence with `deltaTime = 1`. -/
theorem c2_witness :
    (∀ d ∈ [(1 : ℝ)], 0 ≤ d) ∧ offsetsInRange (advanceAll initOffsets [1]) := by
  have hd : ∀ d ∈ [(1 : ℝ)], 0 ≤ d := by
    intro d hmem
    rw [List.mem_singleton] at hmem
    rw [hmem]
    norm_num
  exact ⟨hd, c2_offsets_in_range [1] hd⟩

/- ### Claim C3 -/

/-- Claim C3, amended: each advance call increments both segment offsets by
`2 * deltaTime` (the speed is the fixed constant `2`); an offset whose
incremented value stays below `30` keeps that value, and an offset whose
incremented value reaches or exceeds `30` is hard-reset to exactly `-30`
(not reduced by `2 * boxDepth`, so the fractional overshoot is discarded). -/
theorem c3_advance_behavior (s1 s2 d : ℝ) :
    (s1 + 2 * d < 30 → (advance (s1, s2) d).1 = s1 + 2 * d) ∧
    (30 ≤ s1 + 2 * d → (advance (s1, s2) d).1 = -30) ∧
    (s2 + 2 * d < 30 → (advance (s1, s2) d).2 = s2 + 2 * d) ∧
    (30 ≤ s2 + 2 * d → (advance (s1, s2) d).2 = -30) := by
  unfold advance wrapOffset
  constructor
  · intro h
    simp only [if_neg (not_le.mpr h)]
  constructor
  · intro h
    simp only [if_pos h]
  constructor
  · intro h
    simp only [if_neg (not_le.mpr h)]
  · intro h
    simp only [if_pos h]

/-- Claim C3, counterexample: with the first offset at `0` and
`deltaTime = 15.5`, the incremented value `31` reaches the bound and the
code resets the offset to `-30`, whereas subtracting `2 * boxDepth = 60`
would give `-29`. -/
theorem c3_counterexample :
    (advance (0, -30) 15.5).1 = -30 ∧ (0 : ℝ) + 2 * 15.5 - 60 = -29 ∧
    (-30 : ℝ) ≠ -29 := by
  refine ⟨?_, by norm_num, by norm_num⟩
  unfold advance wrapOffset
  norm_num

/-- Claim C3, witness: the amended theorem applied at offsets `(29, -1)` and
`deltaTime = 1`: the first offset wraps to `-30`, the second becomes `1`. -/
theorem c3_witness :
    (advance (29, -1) 1).1 = -30 ∧ (advance (29, -1) 1).2 = (-1 : ℝ) + 2 * 1 := by
  exact ⟨(c3_advance_behavior 29 (-1) 1).2.1 (by norm_num),
    (c3_advance_behavior 29 (-1) 1).2.2.1 (by norm_num)⟩

/- ### Particle field generator (`TunnelParticles`, both variants) -/

/-- The per-instance random draws consumed by one iteration of the
`particleData` loop.  `inPlane`, `offPlane` and `zDraw` stand for the
outputs of `randFloatSpread(boxSize)`, `randFloat(-halfBoxThickness,
halfBoxThickness)` and `randFloatSpread(boxDepth)`; the remaining fields
are raw `Math.random()` outputs in `[0, 1]`. -/
structure ParticleDraws where
  face : Fin 4
  inPlane : ℝ
  offPlane : ℝ
  zDraw : ℝ
  scaleDraw : ℝ
  rotXDraw : ℝ
  rotYDraw : ℝ
  rotZDraw : ℝ
  colorDraw : ℝ

/-- The props consumed by the `TunnelParticles` component, including the
noise props that `Scene.jsx` passes but the component never destructures. -/
structure ParticleProps where
  count : ℕ
  boxSize : ℝ
  boxDepth : ℝ
  boxThickness : ℝ
  baseSize : ℝ
  sizeRandomness : ℝ
  baseColor : V3
  colorRandomness : ℝ
  baseRotationX : ℝ
  baseRotationY : ℝ
  baseRotationZ : ℝ
  rotationRandomnessX : ℝ
  rotationRandomnessY : ℝ
  rotationRandomnessZ : ℝ
  useParticleNoise : Bool
  particleNoiseScale : ℝ
  particleNoiseThreshold : ℝ

/-- The face-placement logic of the `particleData` loop (first
`TunnelParticles` variant, lines 34-59): the chosen face fixes which
coordinate is offset from `±boxSize/2` by the `offPlane` draw. -/
def particlePosition (boxSize : ℝ) (face : Fin 4) (inPlane offPlane zDraw : ℝ) : V3 :=
  let halfBoxSize := boxSize / 2
  if face = 0 then ⟨inPlane, halfBoxSize + offPlane, zDraw⟩
  else if face = 1 then ⟨inPlane, -halfBoxSize + offPlane, zDraw⟩
  else if face = 2 then ⟨-halfBoxSize + offPlane, inPlane, zDraw⟩
  else ⟨halfBoxSize + offPlane, inPlane, zDraw⟩

/-- One generated particle instance: position, uniform scale, Euler
rotation and linear-RGB color. -/
structure ParticleInstance where
  position : V3
  scale : ℝ
  rotation : V3
  color : V3

/-- One iteration of the `particleData` loop of the first
`TunnelParticles` variant (lines 34-88).  `offsetHSL` abstracts the
three.js `Color.offsetHSL` library call. -/
def mkInstance (offsetHSL : V3 → ℝ → ℝ → ℝ → V3) (p : ParticleProps)
    (d : ParticleDraws) : ParticleInstance :=
  { position := particlePosition p.boxSize d.face d.inPlane d.offPlane d.zDraw
    scale := 1 - p.sizeRandomness + d.scaleDraw * 2 * p.sizeRandomness
    rotation :=
      ⟨p.baseRotationX + (d.rotXDraw - 0.5) * 2 * p.rotationRandomnessX * Real.pi,
       p.baseRotationY + (d.rotYDraw - 0.5) * 2 * p.rotationRandomnessY * Real.pi,
       p.baseRotationZ + (d.rotZDraw - 0.5) * 2 * p.rotationRandomnessZ * Real.pi⟩
    color :=
      if 0 < p.colorRandomness then
        offsetHSL p.baseColor ((d.colorDraw - 0.5) * 2 * p.colorRandomness * 0.3)
          ((d.colorDraw - 0.5) * 2 * p.colorRandomness * 0.3)
          ((d.colorDraw - 0.5) * 2 * p.colorRandomness * 0.3)
      else p.baseColor }

/-- The `matrices` array built by the `particleData` loop: exactly one
entry is pushed per loop iteration, for `count` iterations. -/
def particleMatrices (offsetHSL : V3 → ℝ → ℝ → ℝ → V3) (p : ParticleProps)
    (draws : ℕ → ParticleDraws) : List ParticleInstance :=
  (List.range p.count).map (fun i => mkInstance offsetHSL p (draws i))

/-- The flat `colors` array built by the `particleData` loop: three floats
(`r`, `g`, `b`) are pushed per instance. -/
def particleColors (offsetHSL : V3 → ℝ → ℝ → ℝ → V3) (p : ParticleProps)
    (draws : ℕ → ParticleDraws) : List ℝ :=
  (particleMatrices offsetHSL p draws).flatMap
    (fun inst => [inst.color.x, inst.color.y, inst.color.z])

theorem bind_three_length (l : List ParticleInstance) :
    (l.flatMap (fun inst => [inst.color.x, inst.color.y, inst.color.z])).length =
      3 * l.length := by
  induction l with
  | nil => simp
  | cons a l ih =>
      simp only [List.flatMap_cons, List.length_append, List.length_cons, ih]
      simp
      ring

/-- The second `TunnelParticles` variant (lines 171-227): after the same
face placement, the position is displaced by one unit along its own
normalized direction (`position.addScaledVector(normal, 1)` with
`normal = position.clone().normalize()`). -/
def particlePositionDisplaced (boxSize : ℝ) (face : Fin 4)
    (inPlane offPlane zDraw : ℝ) : V3 :=
  particlePosition boxSize face inPlane offPlane zDraw +
    (particlePosition boxSize face inPlane offPlane zDraw).normalize

/-- Distance of a point from the nominal plane of the face it was
assigned (`+y`, `-y`, `-x`, `+x` at `±boxSize/2`). -/
def facePlaneDistance (boxSize : ℝ) (face : Fin 4) (pos : V3) : ℝ :=
  if face = 0 then |pos.y - boxSize / 2|
  else if face = 1 then |pos.y + boxSize / 2|
  else if face = 2 then |pos.x + boxSize / 2|
  else |pos.x - boxSize / 2|

theorem particlePosition_face0 (boxSize inPlane offPlane zDraw : ℝ) :
    particlePosition boxSize 0 inPlane offPlane zDraw =
      ⟨inPlane, boxSize / 2 + offPlane, zDraw⟩ := by
  unfold particlePosition
  rw [if_pos rfl]

theorem particlePosition_face1 (boxSize inPlane offPlane zDraw : ℝ) :
    particlePosition boxSize 1 inPlane offPlane zDraw =
      ⟨inPlane, -(boxSize / 2) + offPlane, zDraw⟩ := by
  unfold particlePosition
  rw [if_neg (by decide : ¬(1 : Fin 4) = 0), if_pos rfl]

theorem particlePosition_face2 (boxSize inPlane offPlane zDraw : ℝ) :
    particlePosition boxSize 2 inPlane offPlane zDraw =
      ⟨-(boxSize / 2) + offPlane, inPlane, zDraw⟩ := by
  unfold particlePosition
  rw [if_neg (by decide : ¬(2 : Fin 4) = 0), if_neg (by decide : ¬(2 : Fin 4) = 1),
    if_pos rfl]

theorem particlePosition_face3 (boxSize inPlane offPlane zDraw : ℝ) :
    particlePosition boxSize 3 inPlane offPlane zDraw =
      ⟨boxSize / 2 + offPlane, inPlane, zDraw⟩ := by
  unfold particlePosition
  rw [if_neg (by decide : ¬(3 : Fin 4) = 0), if_neg (by decide : ¬(3 : Fin 4) = 1),
    if_neg (by decide : ¬(3 : Fin 4) = 2)]

theorem facePlaneDistance_face0 (boxSize : ℝ) (pos : V3) :
    facePlaneDistance boxSize 0 pos = |pos.y - boxSize / 2| := by
  unfold facePlaneDistance
  rw [if_pos rfl]

theorem facePlaneDistance_face1 (boxSize : ℝ) (pos : V3) :
    facePlaneDistance boxSize 1 pos = |pos.y + boxSize / 2| := by
  unfold facePlaneDistance
  rw [if_neg (by decide : ¬(1 : Fin 4) = 0), if_pos rfl]

theorem facePlaneDistance_face2 (boxSize : ℝ) (pos : V3) :
    facePlaneDistance boxSize 2 pos = |pos.x + boxSize / 2| := by
  unfold facePlaneDistance
  rw [if_neg (by decide : ¬(2 : Fin 4) = 0), if_neg (by decide : ¬(2 : Fin 4) = 1),
    if_pos rfl]

theorem facePlaneDistance_face3 (boxSize : ℝ) (pos : V3) :
    facePlaneDistance boxSize 3 pos = |pos.x - boxSize / 2| := by
  unfold facePlaneDistance
  rw [if_neg (by decide : ¬(3 : Fin 4) = 0), if_neg (by decide : ¬(3 : Fin 4) = 1),
    if_neg (by decide : ¬(3 : Fin 4) = 2)]

theorem particlePosition_wall_shell (boxSize : ℝ) (face : Fin 4)
    (inPlane offPlane zDraw : ℝ) (T halfDepth : ℝ)
    (hoff : |offPlane| ≤ T / 2) (hz : |zDraw| ≤ halfDepth) :
    facePlaneDistance boxSize face
        (particlePosition boxSize face inPlane offPlane zDraw) ≤ T / 2 ∧
      |(particlePosition boxSize face inPlane offPlane zDraw).z| ≤ halfDepth := by
  have h4 : ∀ f : Fin 4, f = 0 ∨ f = 1 ∨ f = 2 ∨ f = 3 := by decide
  rcases h4 face with h | h | h | h <;> subst h
  · rw [particlePosition_face0, facePlaneDistance_face0]
    refine ⟨?_, hz⟩
    have h : (⟨inPlane, boxSize / 2 + offPlane, zDraw⟩ : V3).y - boxSize / 2 = offPlane := by
      show boxSize / 2 + offPlane - boxSize / 2 = offPlane
      ring
    rw [h]
    exact hoff
  · rw [particlePosition_face1, facePlaneDistance_face1]
    refine ⟨?_, hz⟩
    have h : (⟨inPlane, -(boxSize / 2) + offPlane, zDraw⟩ : V3).y + boxSize / 2 = offPlane := by
      show -(boxSize / 2) + offPlane + boxSize / 2 = offPlane
      ring
    rw [h]
    exact hoff
  · rw [particlePosition_face2, facePlaneDistance_face2]
    refine ⟨?_, hz⟩
    have h : (⟨-(boxSize / 2) + offPlane, inPlane, zDraw⟩ : V3).x + boxSize / 2 = offPlane := by
      show -(boxSize / 2) + offPlane + boxSize / 2 = offPlane
      ring
    rw [h]
    exact hoff
  · rw [particlePosition_face3, facePlaneDistance_face3]
    refine ⟨?_, hz⟩
    have h : (⟨boxSize / 2 + offPlane, inPlane, zDraw⟩ : V3).x - boxSize / 2 = offPlane := by
      show boxSize / 2 + offPlane - boxSize / 2 = offPlane
      ring
    rw [h]
    exact hoff

/- ### Claim C8 -/

/-- Claim C8, confirmed: the `particleData` generator of the first
`TunnelParticles` variant returns exactly `count` instance matrices and
`3 * count` color floats, for every combination of generation
parameters — including arbitrary values of the noise-threshold props
(`useParticleNoise`, `particleNoiseScale`, `particleNoiseThreshold`),
which the component receives but never consumes. -/
theorem c8_generate_returns_count (offsetHSL : V3 → ℝ → ℝ → ℝ → V3)
    (p : ParticleProps) (draws : ℕ → ParticleDraws) :
    (particleMatrices offsetHSL p draws).length = p.count ∧
      (particleColors offsetHSL p draws).length = 3 * p.count := by
  constructor
  · unfold particleMatrices
    simp
  · unfold particleColors
    rw [bind_three_length]
    unfold particleMatrices
    simp

/- ### Claim C5 -/

/-- Claim C5, amended: in the first `TunnelParticles` variant (the one the
scene instantiates), every generated instance whose draws lie in the
documented ranges is in the batch, has its out-of-plane coordinate within
`boxThickness / 2` of its assigned face plane, and has its travel-axis
coordinate within `[-boxDepth/2, boxDepth/2]`.  The second variant
violates both bounds (see the counterexample). -/
theorem c5_variant1_instances_on_walls (offsetHSL : V3 → ℝ → ℝ → ℝ → V3)
    (p : ParticleProps) (draws : ℕ → ParticleDraws) (i : ℕ) (hi : i < p.count)
    (hoff : |(draws i).offPlane| ≤ p.boxThickness / 2)
    (hz : |(draws i).zDraw| ≤ p.boxDepth / 2) :
    mkInstance offsetHSL p (draws i) ∈ particleMatrices offsetHSL p draws ∧
      facePlaneDistance p.boxSize (draws i).face
          (mkInstance offsetHSL p (draws i)).position ≤ p.boxThickness / 2 ∧
      |(mkInstance offsetHSL p (draws i)).position.z| ≤ p.boxDepth / 2 := by
  have hshell := particlePosition_wall_shell p.boxSize (draws i).face (draws i).inPlane
    (draws i).offPlane (draws i).zDraw p.boxThickness (p.boxDepth / 2) hoff hz
  refine ⟨?_, hshell.1, hshell.2⟩
  unfold particleMatrices
  exact List.mem_map.mpr ⟨i, List.mem_range.mpr hi, rfl⟩

theorem length_sixY : V3.length ⟨0, 6, 0⟩ = 6 := by
  unfold V3.length V3.dot
  norm_num
  rw [show (36 : ℝ) = 6 ^ 2 by norm_num]
  exact Real.sqrt_sq (by norm_num)

/-- Claim C5, counterexample to the claim over the second variant: with
`boxSize = 10`, `boxThickness = 2`, face `0` (top), in-plane draw `0`,
out-of-plane draw `1` (inside the allowed range `[-1, 1]`) and travel
draw `0`, the drawn point `(0, 6, 0)` is displaced along its own
normalized direction to `(0, 7, 0)`, which lies at distance `2` from
the face plane `y = 5` — more than `boxThickness / 2 = 1`. -/
theorem c5_counterexample :
    |(1 : ℝ)| ≤ (2 : ℝ) / 2 ∧
    facePlaneDistance 10 0 (particlePositionDisplaced 10 0 0 1 0) = 2 ∧
    ¬ facePlaneDistance 10 0 (particlePositionDisplaced 10 0 0 1 0) ≤ (2 : ℝ) / 2 := by
  have hpos : particlePositionDisplaced 10 0 0 1 0 = ⟨0, 7, 0⟩ := by
    unfold particlePositionDisplaced
    rw [particlePosition_face0]
    have h6 : (⟨(0 : ℝ), 10 / 2 + 1, 0⟩ : V3) = ⟨0, 6, 0⟩ := by
      norm_num [V3.mk.injEq]
    rw [h6]
    unfold V3.normalize
    rw [length_sixY]
    show (⟨(0 : ℝ) + 0 / 6, 6 + 6 / 6, 0 + 0 / 6⟩ : V3) = ⟨0, 7, 0⟩
    norm_num [V3.mk.injEq]
  have hdist : facePlaneDistance 10 0 (particlePositionDisplaced 10 0 0 1 0) = 2 := by
    rw [hpos, facePlaneDistance_face0]
    show |(7 : ℝ) - 10 / 2| = 2
    norm_num
  refine ⟨by norm_num, hdist, ?_⟩
  rw [hdist]
  norm_num

/-- Identity stand-in for the three.js `offsetHSL` library call, used only
to instantiate witnesses. -/
def idHSL : V3 → ℝ → ℝ → ℝ → V3 := fun c _ _ _ => c

/-- A one-instance props record used by the C5 witness. -/
def c5props : ParticleProps :=
  { count := 1, boxSize := 10, boxDepth := 30, boxThickness := 2,
    baseSize := 0.38, sizeRandomness := 0, baseColor := ⟨0, 0, 0⟩,
    colorRandomness := 0, baseRotationX := 0, baseRotationY := 0,
    baseRotationZ := 0, rotationRandomnessX := 0, rotationRandomnessY := 0,
    rotationRandomnessZ := 0, useParticleNoise := true,
    particleNoiseScale := 0.2, particleNoiseThreshold := -0.1 }

/-- Concrete draws used by the C5 witness. -/
def c5draws : ℕ → ParticleDraws :=
  fun _ => { face := 0, inPlane := 0, offPlane := 1, zDraw := 0, scaleDraw := 0,
             rotXDraw := 0, rotYDraw := 0, rotZDraw := 0, colorDraw := 0 }

/-- Claim C5, witness: the amended theorem applied to a one-instance batch
with in-range draws. -/
theorem c5_witness :
    0 < c5props.count ∧
    |(c5draws 0).offPlane| ≤ c5props.boxThickness / 2 ∧
    |(c5draws 0).zDraw| ≤ c5props.boxDepth / 2 ∧
    (mkInstance idHSL c5props (c5draws 0) ∈ particleMatrices idHSL c5props c5draws ∧
      facePlaneDistance c5props.boxSize (c5draws 0).face
          (mkInstance idHSL c5props (c5draws 0)).position ≤ c5props.boxThickness / 2 ∧
      |(mkInstance idHSL c5props (c5draws 0)).position.z| ≤ c5props.boxDepth / 2) := by
  have hi : 0 < c5props.count := by
    unfold c5props
    norm_num
  have hoff : |(c5draws 0).offPlane| ≤ c5props.boxThickness / 2 := by
    unfold c5draws c5props
    norm_num
  have hz : |(c5draws 0).zDraw| ≤ c5props.boxDepth / 2 := by
    unfold c5draws c5props
    norm_num
  exact ⟨hi, hoff, hz, c5_variant1_instances_on_walls idHSL c5props c5draws 0 hi hoff hz⟩

/- ### Depth-to-world reconstruction (`getWorldPos`, `volumetricLight.frag` lines 44-53) -/

/-- A 4x4 real matrix, standing for GLSL `mat4`. -/
abbrev Mat4 := Matrix (Fin 4) (Fin 4) ℝ

/-- The clip-space point `vec4(uv * 2.0 - 1.0, depth * 2.0 - 1.0, 1.0)`
(`getWorldPos` lines 45-46). -/
def clipSpacePos (uv : ℝ × ℝ) (depth : ℝ) : Fin 4 → ℝ :=
  ![uv.1 * 2 - 1, uv.2 * 2 - 1, depth * 2 - 1, 1]

/-- The view-space point `projectionMatrixInverse * clipSpacePosition`
(`getWorldPos` line 47). -/
def viewSpacePos (pmi : Mat4) (uv : ℝ × ℝ) (depth : ℝ) : Fin 4 → ℝ :=
  pmi.mulVec (clipSpacePos uv depth)

/-- The perspective divide `viewSpacePosition /= viewSpacePosition.w` (`getWorldPos` line 49). -/
def viewSpaceDivided (pmi : Mat4) (uv : ℝ × ℝ) (depth : ℝ) : Fin 4 → ℝ :=
  fun i => viewSpacePos pmi uv depth i / viewSpacePos pmi uv depth 3

/-- The function `getWorldPos`: the world-space point reconstructed from a screen UV and
a depth sample, via inverse projection, perspective divide and inverse view
(`volumetricLight.frag` lines 44-53). -/
def getWorldPos (pmi vmi : Mat4) (uv : ℝ × ℝ) (depth : ℝ) : V3 :=
  ⟨vmi.mulVec (viewSpaceDivided pmi uv depth) 0,
   vmi.mulVec (viewSpaceDivided pmi uv depth) 1,
   vmi.mulVec (viewSpaceDivided pmi uv depth) 2⟩

/-- Modelled from the spec: the rasterizer's normalized-device coordinate of
a world point under view matrix `V` and projection `P` (the repository's
vertex shader computes `gl_Position = projectionMatrix * modelViewMatrix *
position`; the perspective divide and viewport remap to `[0,1]` are the
fixed-function GPU stage, absent from `src/`). -/
def projectNdc (P V : Mat4) (p : Fin 4 → ℝ) (i : Fin 4) : ℝ :=
  P.mulVec (V.mulVec p) i / P.mulVec (V.mulVec p) 3

/-- Modelled from the spec: the screen UV (in `[0,1]²`) and depth sample
(in `[0,1]`) produced by rendering the world point `p`. -/
def projectToScreen (P V : Mat4) (p : Fin 4 → ℝ) : (ℝ × ℝ) × ℝ :=
  (((projectNdc P V p 0 + 1) / 2, (projectNdc P V p 1 + 1) / 2),
   (projectNdc P V p 2 + 1) / 2)

theorem clipSpacePos_project (P V : Mat4) (p : Fin 4 → ℝ)
    (hw : P.mulVec (V.mulVec p) 3 ≠ 0) :
    clipSpacePos (projectToScreen P V p).1 (projectToScreen P V p).2 =
      (P.mulVec (V.mulVec p) 3)⁻¹ • P.mulVec (V.mulVec p) := by
  funext i
  fin_cases i
  · show (projectNdc P V p 0 + 1) / 2 * 2 - 1 = (P.mulVec (V.mulVec p) 3)⁻¹ * P.mulVec (V.mulVec p) 0
    unfold projectNdc
    field_simp
  · show (projectNdc P V p 1 + 1) / 2 * 2 - 1 = (P.mulVec (V.mulVec p) 3)⁻¹ * P.mulVec (V.mulVec p) 1
    unfold projectNdc
    field_simp
  · show (projectNdc P V p 2 + 1) / 2 * 2 - 1 = (P.mulVec (V.mulVec p) 3)⁻¹ * P.mulVec (V.mulVec p) 2
    unfold projectNdc
    field_simp
  · show (1 : ℝ) = (P.mulVec (V.mulVec p) 3)⁻¹ * P.mulVec (V.mulVec p) 3
    rw [inv_mul_cancel₀ hw]

/- ### Claim C4 -/

/-- Claim C4, confirmed: for an invertible projection `P` and invertible
view matrix `V` that maps the world point `p` to a view-space point with
fourth coordinate `1` (true of every camera view matrix, whose bottom row
is `(0,0,0,1)`), and a non-degenerate perspective divide
(`clip.w ≠ 0`, implied by the point being inside the view frustum),
`getWorldPos` applied to the point's own projected screen UV and depth
returns exactly the original world point. -/
theorem c4_getWorldPos_roundtrip (P V : Mat4) (p : Fin 4 → ℝ)
    (hP : IsUnit P.det) (hV : IsUnit V.det)
    (hw : P.mulVec (V.mulVec p) 3 ≠ 0)
    (haff : V.mulVec p 3 = 1) :
    getWorldPos P⁻¹ V⁻¹ (projectToScreen P V p).1 (projectToScreen P V p).2 =
      ⟨p 0, p 1, p 2⟩ := by
  have hcomp : Matrix.mulVec P⁻¹ (Matrix.mulVec P (Matrix.mulVec V p)) =
      Matrix.mulVec V p := by
    rw [Matrix.mulVec_mulVec, Matrix.nonsing_inv_mul P hP, Matrix.one_mulVec]
  have hview : viewSpacePos P⁻¹ (projectToScreen P V p).1 (projectToScreen P V p).2 =
      (P.mulVec (V.mulVec p) 3)⁻¹ • V.mulVec p := by
    unfold viewSpacePos
    rw [clipSpacePos_project P V p hw, Matrix.mulVec_smul, hcomp]
  have hdiv : viewSpaceDivided P⁻¹ (projectToScreen P V p).1 (projectToScreen P V p).2 =
      V.mulVec p := by
    funext i
    unfold viewSpaceDivided
    rw [hview]
    show (P.mulVec (V.mulVec p) 3)⁻¹ * V.mulVec p i /
        ((P.mulVec (V.mulVec p) 3)⁻¹ * V.mulVec p 3) = V.mulVec p i
    rw [haff, mul_one]
    have hw2 : (P * V).mulVec p 3 ≠ 0 := by
      rw [← Matrix.mulVec_mulVec]
      exact hw
    field_simp
  have hworld : V⁻¹.mulVec (viewSpaceDivided P⁻¹ (projectToScreen P V p).1
      (projectToScreen P V p).2) = p := by
    rw [hdiv, Matrix.mulVec_mulVec, Matrix.nonsing_inv_mul V hV, Matrix.one_mulVec]
  unfold getWorldPos
  rw [hworld]

/-- Claim C4, witness: the round-trip theorem applied with identity
projection and view matrices to the world point `(1, 2, 3, 1)`. -/
theorem c4_witness :
    IsUnit (1 : Mat4).det ∧
    Matrix.mulVec (1 : Mat4) (Matrix.mulVec (1 : Mat4) ![(1 : ℝ), 2, 3, 1]) 3 ≠ 0 ∧
    Matrix.mulVec (1 : Mat4) ![(1 : ℝ), 2, 3, 1] 3 = 1 ∧
    getWorldPos (1 : Mat4)⁻¹ (1 : Mat4)⁻¹
        (projectToScreen 1 1 ![(1 : ℝ), 2, 3, 1]).1
        (projectToScreen 1 1 ![(1 : ℝ), 2, 3, 1]).2 = ⟨1, 2, 3⟩ := by
  have hdet : IsUnit (1 : Mat4).det := by
    rw [Matrix.det_one]
    exact isUnit_one
  have hth : Matrix.mulVec (1 : Mat4) ![(1 : ℝ), 2, 3, 1] 3 = 1 := by
    rw [Matrix.one_mulVec]
    simp [Matrix.cons_val_three]
  have hw : Matrix.mulVec (1 : Mat4) (Matrix.mulVec (1 : Mat4) ![(1 : ℝ), 2, 3, 1]) 3 ≠ 0 := by
    rw [Matrix.one_mulVec, hth]
    norm_num
  have hround := c4_getWorldPos_roundtrip 1 1 ![(1 : ℝ), 2, 3, 1] hdet hdet hw hth
  refine ⟨hdet, hw, hth, ?_⟩
  rw [hround]
  have h0 : (![(1 : ℝ), 2, 3, 1]) 0 = 1 := rfl
  have h1 : (![(1 : ℝ), 2, 3, 1]) 1 = 2 := by simp
  have h2 : (![(1 : ℝ), 2, 3, 1]) 2 = 3 := by simp [Matrix.cons_val_two]
  rw [h0, h1, h2]

/- ### Volumetric light transport kernel (`volumetricLight.frag` `main`, lines 66-136) -/

/-- The shader constant `NUM_SAMPLES` (defined as `100`). -/
def NUM_SAMPLES : ℕ := 100

/-- The shader constant `DENSITY` (defined as `0.975`). -/
def DENSITY : ℝ := 0.975

/-- The shader constant `LIGHT_ATTENUATION` (defined as `5.0`). -/
def LIGHT_ATTENUATION : ℝ := 5

/-- The function `lightAttenuation` (`volumetricLight.frag` lines 56-58). -/
def lightAttenuation (dist : ℝ) : ℝ := 1 / (1 + dist * dist * LIGHT_ATTENUATION)

/-- The function `noise` (`volumetricLight.frag` lines 61-64): a wrap-around lookup of
the turbulence texture at `fract(pos.xz * frequency)`. -/
def noiseLookup (noiseTexture : ℝ × ℝ → ℝ) (pos : V3) (frequency : ℝ) : ℝ :=
  noiseTexture (Int.fract (pos.x * frequency), Int.fract (pos.z * frequency))

/-- The uniforms and samplers read by the fragment kernel.  Texture
samplers are modelled as functions from UV to value. -/
structure KernelInput where
  inputBuffer : ℝ × ℝ → Fin 4 → ℝ
  blueNoiseTexture : ℝ × ℝ → ℝ
  noiseTexture : ℝ × ℝ → ℝ
  projectionMatrixInverse : Mat4
  viewMatrixInverse : Mat4
  lightPosition : V3
  lightDirection : V3
  cameraPosition : V3
  coneAngle : ℝ
  uFrame : ℝ

/-- The function `getDepth` (`volumetricLight.frag` lines 39-41): the depth sample is
the alpha channel of the input buffer. -/
def getDepth (k : KernelInput) (uv : ℝ × ℝ) : ℝ := k.inputBuffer uv 3

/-- The value `worldPos` of `main` (line 71). -/
def kWorldPos (k : KernelInput) (uv : ℝ × ℝ) : V3 :=
  getWorldPos k.projectionMatrixInverse k.viewMatrixInverse uv (getDepth k uv)

/-- The value `rayDir = normalize(worldPos - rayOrigin)` (line 75). -/
def kRayDir (k : KernelInput) (uv : ℝ × ℝ) : V3 :=
  (kWorldPos k uv - k.cameraPosition).normalize

/-- The value `rayLength = length(worldPos - rayOrigin)` (line 78). -/
def kRayLength (k : KernelInput) (uv : ℝ × ℝ) : ℝ :=
  (kWorldPos k uv - k.cameraPosition).length

/-- The value `intersect` of `main` (lines 81-85). -/
def kIntersect (k : KernelInput) (uv : ℝ × ℝ) : ℝ :=
  rayConeIntersect k.cameraPosition (kRayDir k uv) k.lightPosition
    k.lightDirection.normalize k.coneAngle

/-- The value `stepSize = rayLength / float(NUM_SAMPLES)` (line 93). -/
def kStepSize (k : KernelInput) (uv : ℝ × ℝ) : ℝ :=
  kRayLength k uv / (NUM_SAMPLES : ℝ)

/-- The value `blueNoise` (lines 89-90). -/
def kBlueNoise (k : KernelInput) (uv : ℝ × ℝ) : ℝ :=
  k.blueNoiseTexture
    (Int.fract (uv.1 + k.uFrame * 0.001), Int.fract (uv.2 + k.uFrame * 0.001))

/-- The value `randomOffset = blueNoise * stepSize` (line 94). -/
def kRandomOffset (k : KernelInput) (uv : ℝ × ℝ) : ℝ :=
  kBlueNoise k uv * kStepSize k uv

/-- The march parameter `t = randomOffset + float(i) * stepSize` (line 100). -/
def kT (k : KernelInput) (uv : ℝ × ℝ) (i : ℕ) : ℝ :=
  kRandomOffset k uv + (i : ℝ) * kStepSize k uv

/-- The value `coneCosine = cos(radians(coneAngle))` (line 112). -/
def kConeCosine (k : KernelInput) : ℝ := Real.cos (radians k.coneAngle)

/-- The sample position `pos = rayOrigin + rayDir * t` (line 104). -/
def kSamplePos (k : KernelInput) (uv : ℝ × ℝ) (t : ℝ) : V3 :=
  k.cameraPosition + t • kRayDir k uv

/-- The value `dotLight = dot(normalize(lightPosition - pos), normalize(-lightDirection))`
(lines 110-111). -/
def kDotLight (k : KernelInput) (uv : ℝ × ℝ) (t : ℝ) : ℝ :=
  V3.dot (k.lightPosition - kSamplePos k uv t).normalize (-k.lightDirection).normalize

/-- One loop body of the march (lines 109-127): the density contribution
of the sample at parameter `t`, zero when the sample is outside the cone. -/
def kTerm (k : KernelInput) (uv : ℝ × ℝ) (t : ℝ) : ℝ :=
  if kConeCosine k < kDotLight k uv t then
    lightAttenuation ((kSamplePos k uv t - k.lightPosition).length) *
      ((kDotLight k uv t - kConeCosine k) / (1 - kConeCosine k)) ^ 2 *
      (noiseLookup k.noiseTexture (kSamplePos k uv t) 0.1 *
        noiseLookup k.noiseTexture ((2 : ℝ) • kSamplePos k uv t) 0.05) *
      DENSITY * kStepSize k uv
  else 0

/-- The march loop (lines 99-128), with the `if (t > rayLength) break`
early exit, as structural recursion on the remaining fuel. -/
def kMarch (k : KernelInput) (uv : ℝ × ℝ) : ℕ → ℕ → ℝ
  | 0, _ => 0
  | fuel + 1, i =>
      if kRayLength k uv < kT k uv i then 0
      else kTerm k uv (kT k uv i) + kMarch k uv fuel (i + 1)

/-- The value `density` after the march (line 97 and the loop). -/
def kDensity (k : KernelInput) (uv : ℝ × ℝ) : ℝ := kMarch k uv NUM_SAMPLES 0

/-- The beam color `vec3(1.0, 1.0, 1.0)` (line 131). -/
def lightColor : V3 := ⟨1, 1, 1⟩

/-- The entry point `main` of `volumetricLight.frag` (lines 66-136): when the guard
`intersect > 0.0 && intersect < rayLength` holds, `lightColor * density`
is added to the rgb of the input sample; otherwise the sample passes
through unchanged.  The alpha channel is never written. -/
def main (k : KernelInput) (uv : ℝ × ℝ) : Fin 4 → ℝ :=
  if 0 < kIntersect k uv ∧ kIntersect k uv < kRayLength k uv then
    ![k.inputBuffer uv 0 + lightColor.x * kDensity k uv,
      k.inputBuffer uv 1 + lightColor.y * kDensity k uv,
      k.inputBuffer uv 2 + lightColor.z * kDensity k uv,
      k.inputBuffer uv 3]
  else k.inputBuffer uv

theorem lightAttenuation_pos (d : ℝ) : 0 < lightAttenuation d := by
  unfold lightAttenuation LIGHT_ATTENUATION
  have h : (0 : ℝ) < 1 + d * d * 5 := by nlinarith [mul_self_nonneg d]
  exact div_pos one_pos h

theorem lightAttenuation_nonneg (d : ℝ) : 0 ≤ lightAttenuation d :=
  le_of_lt (lightAttenuation_pos d)

theorem kStepSize_nonneg (k : KernelInput) (uv : ℝ × ℝ) : 0 ≤ kStepSize k uv := by
  unfold kStepSize kRayLength
  exact div_nonneg (V3.length_nonneg (kWorldPos k uv - k.cameraPosition))
    (Nat.cast_nonneg _)

theorem kTerm_nonneg (k : KernelInput) (uv : ℝ × ℝ) (t : ℝ)
    (hn : ∀ p, 0 ≤ k.noiseTexture p) : 0 ≤ kTerm k uv t := by
  unfold kTerm
  by_cases h : kConeCosine k < kDotLight k uv t
  · rw [if_pos h]
    have h1 := lightAttenuation_nonneg ((kSamplePos k uv t - k.lightPosition).length)
    have h2 : (0 : ℝ) ≤ ((kDotLight k uv t - kConeCosine k) / (1 - kConeCosine k)) ^ 2 :=
      sq_nonneg _
    have h3 := hn (Int.fract ((kSamplePos k uv t).x * 0.1),
      Int.fract ((kSamplePos k uv t).z * 0.1))
    have h4 := hn (Int.fract (((2 : ℝ) • kSamplePos k uv t).x * 0.05),
      Int.fract (((2 : ℝ) • kSamplePos k uv t).z * 0.05))
    have h5 := kStepSize_nonneg k uv
    unfold noiseLookup
    have hD : (0 : ℝ) ≤ DENSITY := by unfold DENSITY; norm_num
    positivity
  · rw [if_neg h]

theorem kT_mono (k : KernelInput) (uv : ℝ × ℝ) (hstep : 0 ≤ kStepSize k uv)
    {i j : ℕ} (hij : i ≤ j) : kT k uv i ≤ kT k uv j := by
  unfold kT
  have : (i : ℝ) ≤ (j : ℝ) := Nat.cast_le.mpr hij
  nlinarith

theorem kMarch_eq_sum (k : KernelInput) (uv : ℝ × ℝ) :
    ∀ (fuel i : ℕ), kMarch k uv fuel i =
      ∑ j in Finset.range fuel,
        (if kT k uv (i + j) ≤ kRayLength k uv then kTerm k uv (kT k uv (i + j)) else 0) := by
  intro fuel
  induction fuel with
  | zero => intro i; simp [kMarch]
  | succ n ih =>
      intro i
      show (if kRayLength k uv < kT k uv i then 0
        else kTerm k uv (kT k uv i) + kMarch k uv n (i + 1)) = _
      by_cases h : kRayLength k uv < kT k uv i
      · rw [if_pos h]
        symm
        apply Finset.sum_eq_zero
        intro j _
        rw [if_neg]
        intro hle
        exact absurd (le_trans (kT_mono k uv (kStepSize_nonneg k uv)
          (Nat.le_add_right i j)) hle) (not_le.mpr h)
      · rw [if_neg h, Finset.sum_range_succ']
        rw [ih (i + 1)]
        have hshift : ∀ j ∈ Finset.range n,
            (if kT k uv (i + 1 + j) ≤ kRayLength k uv
              then kTerm k uv (kT k uv (i + 1 + j)) else 0) =
            (if kT k uv (i + (j + 1)) ≤ kRayLength k uv
              then kTerm k uv (kT k uv (i + (j + 1))) else 0) := by
          intro j _
          rw [show i + 1 + j = i + (j + 1) by omega]
        rw [Finset.sum_congr rfl hshift]
        rw [show i + 0 = i by omega]
        rw [if_pos (not_lt.mp h)]
        ring

theorem kMarch_nonneg (k : KernelInput) (uv : ℝ × ℝ)
    (hn : ∀ p, 0 ≤ k.noiseTexture p) (fuel i : ℕ) : 0 ≤ kMarch k uv fuel i := by
  rw [kMarch_eq_sum]
  apply Finset.sum_nonneg
  intro j _
  by_cases h : kT k uv (i + j) ≤ kRayLength k uv
  · rw [if_pos h]
    exact kTerm_nonneg k uv _ hn
  · rw [if_neg h]

theorem vec4_at0 (a b c d : ℝ) : (![a, b, c, d]) 0 = a := rfl

theorem vec4_at1 (a b c d : ℝ) : (![a, b, c, d]) 1 = b := by
  simp

theorem vec4_at2 (a b c d : ℝ) : (![a, b, c, d]) 2 = c := by
  simp [Matrix.cons_val_two]

theorem vec4_at3 (a b c d : ℝ) : (![a, b, c, d]) 3 = d := by
  simp [Matrix.cons_val_three]

theorem normalize_unitZ : V3.normalize ⟨0, 0, 1⟩ = ⟨0, 0, 1⟩ := by
  unfold V3.normalize
  rw [length_unitZ]
  norm_num

theorem coneA_unitZ : coneA ⟨0, 0, 1⟩ ⟨0, 0, 1⟩ 60 = 1 / 2 := by
  unfold coneA
  rw [cos_radians_sixty, length_unitZ]
  unfold V3.dot
  norm_num

theorem length_negFiveX : V3.length ⟨-5, 0, 0⟩ = 5 := by
  unfold V3.length V3.dot
  norm_num
  rw [show (25 : ℝ) = 5 ^ 2 by norm_num]
  exact Real.sqrt_sq (by norm_num)

theorem coneB_originFiveX : coneB ⟨0, 0, 0⟩ ⟨5, 0, 0⟩ ⟨0, 0, 1⟩ 60 = -(5 / 2) := by
  unfold coneB
  have hsub : (⟨0, 0, 0⟩ - ⟨5, 0, 0⟩ : V3) = ⟨-5, 0, 0⟩ := by
    show (⟨0 - 5, 0 - 0, 0 - 0⟩ : V3) = ⟨-5, 0, 0⟩
    norm_num
  rw [hsub, cos_radians_sixty, length_negFiveX]
  unfold V3.dot
  norm_num

theorem rayConeIntersect_sentinel_case :
    rayConeIntersect ⟨0, 0, 0⟩ ⟨0, 0, 1⟩ ⟨5, 0, 0⟩ ⟨0, 0, 1⟩ 60 = MAX_DIST := by
  simp only [rayConeIntersect]
  rw [coneA_unitZ, coneB_originFiveX]
  norm_num

/- ### Claim C6 -/

/-- Claim C6, amended: whenever the ray-cone entry distance is at least the
ray length to the reconstructed surface, the kernel contributes nothing and
the output equals the input sample.  The no-intersection sentinel
`MAX_DIST = 100` only falls under this case when `rayLength ≤ 100`; for a
pixel whose surface is farther than `100` units the sentinel passes the
guard `intersect < rayLength` and the kernel can add density (see the
counterexample). -/
theorem c6_entry_beyond_surface_no_contribution (k : KernelInput) (uv : ℝ × ℝ)
    (h : kRayLength k uv ≤ kIntersect k uv) :
    main k uv = k.inputBuffer uv := by
  unfold main
  rw [if_neg]
  rintro ⟨_, h2⟩
  exact absurd h (not_le.mpr h2)

/-- The concrete kernel configuration of the C6 witness: identity matrices,
constant textures, camera at the origin looking at a surface one unit away,
light apex at `(5, 0, 0)` with axis `(0, 0, 1)` and half-angle `60°`. -/
def kSimple : KernelInput :=
  { inputBuffer := fun _ => ![0, 0, 0, 1]
    blueNoiseTexture := fun _ => 1
    noiseTexture := fun _ => 1
    projectionMatrixInverse := 1
    viewMatrixInverse := 1
    lightPosition := ⟨5, 0, 0⟩
    lightDirection := ⟨0, 0, 1⟩
    cameraPosition := ⟨0, 0, 0⟩
    coneAngle := 60
    uFrame := 0 }

theorem kSimple_worldPos : kWorldPos kSimple (1 / 2, 1 / 2) = ⟨0, 0, 1⟩ := by
  unfold kWorldPos getWorldPos
  have hdepth : getDepth kSimple (1 / 2, 1 / 2) = 1 := by
    unfold getDepth kSimple
    exact vec4_at3 0 0 0 1
  rw [hdepth]
  have hclip : clipSpacePos ((1 : ℝ) / 2, (1 : ℝ) / 2) 1 = ![0, 0, 1, 1] := by
    unfold clipSpacePos
    norm_num
  have hview : viewSpacePos kSimple.projectionMatrixInverse ((1 : ℝ) / 2, (1 : ℝ) / 2) 1 =
      ![0, 0, 1, 1] := by
    unfold viewSpacePos
    rw [hclip]
    show Matrix.mulVec 1 ![(0 : ℝ), 0, 1, 1] = ![0, 0, 1, 1]
    exact Matrix.one_mulVec _
  have hdiv : viewSpaceDivided kSimple.projectionMatrixInverse
      ((1 : ℝ) / 2, (1 : ℝ) / 2) 1 = ![0, 0, 1, 1] := by
    unfold viewSpaceDivided
    rw [hview]
    funext i
    fin_cases i <;> rw [vec4_at3] <;> exact div_one _
  rw [hdiv]
  show (⟨Matrix.mulVec 1 ![(0 : ℝ), 0, 1, 1] 0, Matrix.mulVec 1 ![(0 : ℝ), 0, 1, 1] 1,
    Matrix.mulVec 1 ![(0 : ℝ), 0, 1, 1] 2⟩ : V3) = ⟨0, 0, 1⟩
  rw [Matrix.one_mulVec]
  rw [vec4_at0, vec4_at1, vec4_at2]

theorem kSimple_rayVec : kWorldPos kSimple (1 / 2, 1 / 2) - kSimple.cameraPosition =
    ⟨0, 0, 1⟩ := by
  rw [kSimple_worldPos]
  show (⟨0 - 0, 0 - 0, 1 - 0⟩ : V3) = ⟨0, 0, 1⟩
  norm_num

theorem kSimple_rayLength : kRayLength kSimple (1 / 2, 1 / 2) = 1 := by
  unfold kRayLength
  rw [kSimple_rayVec, length_unitZ]

theorem kSimple_intersect : kIntersect kSimple (1 / 2, 1 / 2) = MAX_DIST := by
  unfold kIntersect
  have hdir : kRayDir kSimple (1 / 2, 1 / 2) = ⟨0, 0, 1⟩ := by
    unfold kRayDir
    rw [kSimple_rayVec, normalize_unitZ]
  rw [hdir]
  show rayConeIntersect ⟨0, 0, 0⟩ ⟨0, 0, 1⟩ ⟨5, 0, 0⟩ (V3.normalize ⟨0, 0, 1⟩) 60 = MAX_DIST
  rw [normalize_unitZ]
  exact rayConeIntersect_sentinel_case

/-- Claim C6, witness: the amended theorem applied to the `kSimple`
configuration, where the entry distance is the sentinel `100` and the ray
length is `1`. -/
theorem c6_witness :
    kRayLength kSimple (1 / 2, 1 / 2) ≤ kIntersect kSimple (1 / 2, 1 / 2) ∧
    main kSimple (1 / 2, 1 / 2) = kSimple.inputBuffer (1 / 2, 1 / 2) := by
  have h : kRayLength kSimple (1 / 2, 1 / 2) ≤ kIntersect kSimple (1 / 2, 1 / 2) := by
    rw [kSimple_rayLength, kSimple_intersect]
    unfold MAX_DIST
    norm_num
  exact ⟨h, c6_entry_beyond_surface_no_contribution kSimple (1 / 2, 1 / 2) h⟩

/- ### Claim C10 -/

/-- Claim C10, confirmed: with non-negative noise textures, the ray-march
kernel never decreases any rgb component of the input sample and leaves the
alpha channel unchanged, and the accumulated density equals a sum over the
`NUM_SAMPLES` sample indices in which indices whose march parameter `t`
exceeds the ray length (samples beyond the reconstructed surface)
contribute exactly `0`. -/
theorem c10_kernel_monotone_rgb_alpha (k : KernelInput) (uv : ℝ × ℝ)
    (hn : ∀ p, 0 ≤ k.noiseTexture p) :
    k.inputBuffer uv 0 ≤ main k uv 0 ∧
    k.inputBuffer uv 1 ≤ main k uv 1 ∧
    k.inputBuffer uv 2 ≤ main k uv 2 ∧
    main k uv 3 = k.inputBuffer uv 3 ∧
    kDensity k uv = ∑ j in Finset.range NUM_SAMPLES,
      (if kT k uv j ≤ kRayLength k uv then kTerm k uv (kT k uv j) else 0) := by
  have hden : 0 ≤ kDensity k uv := kMarch_nonneg k uv hn NUM_SAMPLES 0
  have hdensum : kDensity k uv = ∑ j in Finset.range NUM_SAMPLES,
      (if kT k uv j ≤ kRayLength k uv then kTerm k uv (kT k uv j) else 0) := by
    unfold kDensity
    rw [kMarch_eq_sum]
    apply Finset.sum_congr rfl
    intro j _
    rw [Nat.zero_add]
  have hlx : lightColor.x = 1 := rfl
  have hly : lightColor.y = 1 := rfl
  have hlz : lightColor.z = 1 := rfl
  by_cases hguard : 0 < kIntersect k uv ∧ kIntersect k uv < kRayLength k uv
  · unfold main
    rw [if_pos hguard]
    refine ⟨?_, ?_, ?_, ?_, hdensum⟩
    · rw [vec4_at0, hlx]
      linarith
    · rw [vec4_at1, hly]
      linarith
    · rw [vec4_at2, hlz]
      linarith
    · rw [vec4_at3]
  · unfold main
    rw [if_neg hguard]
    exact ⟨le_refl _, le_refl _, le_refl _, rfl, hdensum⟩

/-- Claim C10, witness: the theorem applied to the `kSimple` configuration
(whose noise textures are the constant `1`). -/
theorem c10_witness :
    (∀ p : ℝ × ℝ, 0 ≤ kSimple.noiseTexture p) ∧
    kSimple.inputBuffer (1 / 2, 1 / 2) 0 ≤ main kSimple (1 / 2, 1 / 2) 0 ∧
    kSimple.inputBuffer (1 / 2, 1 / 2) 1 ≤ main kSimple (1 / 2, 1 / 2) 1 ∧
    kSimple.inputBuffer (1 / 2, 1 / 2) 2 ≤ main kSimple (1 / 2, 1 / 2) 2 ∧
    main kSimple (1 / 2, 1 / 2) 3 = kSimple.inputBuffer (1 / 2, 1 / 2) 3 := by
  have hn : ∀ p : ℝ × ℝ, 0 ≤ kSimple.noiseTexture p := by
    intro p
    show (0 : ℝ) ≤ 1
    norm_num
  have h := c10_kernel_monotone_rgb_alpha kSimple (1 / 2, 1 / 2) hn
  exact ⟨hn, h.1, h.2.1, h.2.2.1, h.2.2.2.1⟩

/-- The concrete kernel configuration of the C6 counterexample:
`projectionMatrixInverse` places the reconstructed surface `150` units from
the camera, farther than the sentinel `MAX_DIST = 100`; the light cone is
the one of `rayConeIntersect_sentinel_case`, textures are constant `1`. -/
def cEx : KernelInput :=
  { inputBuffer := fun _ => ![0, 0, 0, 1]
    blueNoiseTexture := fun _ => 1
    noiseTexture := fun _ => 1
    projectionMatrixInverse := Matrix.diagonal ![1, 1, 150, 1]
    viewMatrixInverse := 1
    lightPosition := ⟨5, 0, 0⟩
    lightDirection := ⟨0, 0, 1⟩
    cameraPosition := ⟨0, 0, 0⟩
    coneAngle := 60
    uFrame := 0 }

theorem cEx_worldPos : kWorldPos cEx (1 / 2, 1 / 2) = ⟨0, 0, 150⟩ := by
  unfold kWorldPos getWorldPos
  have hdepth : getDepth cEx (1 / 2, 1 / 2) = 1 := by
    unfold getDepth cEx
    exact vec4_at3 0 0 0 1
  rw [hdepth]
  have hclip : clipSpacePos ((1 : ℝ) / 2, (1 : ℝ) / 2) 1 = ![0, 0, 1, 1] := by
    unfold clipSpacePos
    norm_num
  have hview : viewSpacePos cEx.projectionMatrixInverse ((1 : ℝ) / 2, (1 : ℝ) / 2) 1 =
      ![0, 0, 150, 1] := by
    unfold viewSpacePos
    rw [hclip]
    show Matrix.mulVec (Matrix.diagonal ![1, 1, 150, 1]) ![(0 : ℝ), 0, 1, 1] =
      ![0, 0, 150, 1]
    funext x
    rw [Matrix.mulVec_diagonal]
    fin_cases x <;> simp [Matrix.cons_val_two, Matrix.cons_val_three]
  have hdiv : viewSpaceDivided cEx.projectionMatrixInverse
      ((1 : ℝ) / 2, (1 : ℝ) / 2) 1 = ![0, 0, 150, 1] := by
    unfold viewSpaceDivided
    rw [hview]
    funext i
    fin_cases i <;> rw [vec4_at3] <;> exact div_one _
  rw [hdiv]
  show (⟨Matrix.mulVec 1 ![(0 : ℝ), 0, 150, 1] 0, Matrix.mulVec 1 ![(0 : ℝ), 0, 150, 1] 1,
    Matrix.mulVec 1 ![(0 : ℝ), 0, 150, 1] 2⟩ : V3) = ⟨0, 0, 150⟩
  rw [Matrix.one_mulVec]
  rw [vec4_at0, vec4_at1, vec4_at2]

theorem cEx_rayVec : kWorldPos cEx (1 / 2, 1 / 2) - cEx.cameraPosition = ⟨0, 0, 150⟩ := by
  rw [cEx_worldPos]
  show (⟨0 - 0, 0 - 0, 150 - 0⟩ : V3) = ⟨0, 0, 150⟩
  norm_num

theorem length_150Z : V3.length ⟨0, 0, 150⟩ = 150 := by
  unfold V3.length V3.dot
  norm_num
  rw [show (22500 : ℝ) = 150 ^ 2 by norm_num]
  exact Real.sqrt_sq (by norm_num)

theorem cEx_rayLength : kRayLength cEx (1 / 2, 1 / 2) = 150 := by
  unfold kRayLength
  rw [cEx_rayVec, length_150Z]

theorem normalize_150Z : V3.normalize ⟨0, 0, 150⟩ = ⟨0, 0, 1⟩ := by
  unfold V3.normalize
  rw [length_150Z]
  norm_num

theorem cEx_rayDir : kRayDir cEx (1 / 2, 1 / 2) = ⟨0, 0, 1⟩ := by
  unfold kRayDir
  rw [cEx_rayVec, normalize_150Z]

theorem cEx_intersect : kIntersect cEx (1 / 2, 1 / 2) = MAX_DIST := by
  unfold kIntersect
  rw [cEx_rayDir]
  show rayConeIntersect ⟨0, 0, 0⟩ ⟨0, 0, 1⟩ ⟨5, 0, 0⟩ (V3.normalize ⟨0, 0, 1⟩) 60 = MAX_DIST
  rw [normalize_unitZ]
  exact rayConeIntersect_sentinel_case

theorem cEx_guard : 0 < kIntersect cEx (1 / 2, 1 / 2) ∧
    kIntersect cEx (1 / 2, 1 / 2) < kRayLength cEx (1 / 2, 1 / 2) := by
  rw [cEx_intersect, cEx_rayLength]
  unfold MAX_DIST
  norm_num

theorem cEx_stepSize : kStepSize cEx (1 / 2, 1 / 2) = 3 / 2 := by
  unfold kStepSize
  rw [cEx_rayLength]
  unfold NUM_SAMPLES
  norm_num

theorem cEx_randomOffset : kRandomOffset cEx (1 / 2, 1 / 2) = 3 / 2 := by
  unfold kRandomOffset
  have hbn : kBlueNoise cEx (1 / 2, 1 / 2) = 1 := rfl
  rw [hbn, cEx_stepSize, one_mul]

theorem cEx_t1 : kT cEx (1 / 2, 1 / 2) 1 = 3 := by
  unfold kT
  rw [cEx_randomOffset, cEx_stepSize]
  norm_num

theorem cEx_pos3 : kSamplePos cEx (1 / 2, 1 / 2) 3 = ⟨0, 0, 3⟩ := by
  unfold kSamplePos
  rw [cEx_rayDir]
  show (⟨0 + 3 * 0, 0 + 3 * 0, 0 + 3 * 1⟩ : V3) = ⟨0, 0, 3⟩
  norm_num

theorem sqrt34_pos : 0 < Real.sqrt 34 := Real.sqrt_pos.mpr (by norm_num)

theorem sqrt34_lt_six : Real.sqrt 34 < 6 := by
  rw [Real.sqrt_lt' (by norm_num : (0 : ℝ) < 6)]
  norm_num

theorem length_toLight : V3.length ⟨5, 0, -3⟩ = Real.sqrt 34 := by
  unfold V3.length V3.dot
  norm_num

theorem length_fromLight : V3.length ⟨-5, 0, 3⟩ = Real.sqrt 34 := by
  unfold V3.length V3.dot
  norm_num

theorem normalize_negZ : V3.normalize ⟨0, 0, -1⟩ = ⟨0, 0, -1⟩ := by
  have hlen : V3.length ⟨0, 0, -1⟩ = 1 := by
    unfold V3.length V3.dot
    norm_num
  unfold V3.normalize
  rw [hlen]
  norm_num

theorem cEx_dotLight3 : kDotLight cEx (1 / 2, 1 / 2) 3 = 3 / Real.sqrt 34 := by
  unfold kDotLight
  rw [cEx_pos3]
  have hsub : cEx.lightPosition - (⟨0, 0, 3⟩ : V3) = ⟨5, 0, -3⟩ := by
    show (⟨5 - 0, 0 - 0, 0 - 3⟩ : V3) = ⟨5, 0, -3⟩
    norm_num
  have hneg : -cEx.lightDirection = (⟨0, 0, -1⟩ : V3) := by
    show (⟨-0, -0, -1⟩ : V3) = ⟨0, 0, -1⟩
    norm_num
  rw [hsub, hneg, normalize_negZ]
  unfold V3.normalize
  rw [length_toLight]
  unfold V3.dot
  have h0 : (0 : ℝ) / Real.sqrt 34 = 0 := zero_div _
  field_simp

theorem cEx_coneCosine : kConeCosine cEx = 1 / 2 := by
  unfold kConeCosine
  show Real.cos (radians 60) = 1 / 2
  exact cos_radians_sixty

theorem cEx_inCone3 : kConeCosine cEx < kDotLight cEx (1 / 2, 1 / 2) 3 := by
  rw [cEx_coneCosine, cEx_dotLight3]
  rw [lt_div_iff₀ sqrt34_pos]
  nlinarith [sqrt34_lt_six]

theorem cEx_term1_pos : 0 < kTerm cEx (1 / 2, 1 / 2) 3 := by
  unfold kTerm
  rw [if_pos cEx_inCone3]
  have hsub : kSamplePos cEx (1 / 2, 1 / 2) 3 - cEx.lightPosition = ⟨-5, 0, 3⟩ := by
    rw [cEx_pos3]
    show (⟨0 - 5, 0 - 0, 3 - 0⟩ : V3) = ⟨-5, 0, 3⟩
    norm_num
  have hatt : 0 < lightAttenuation ((kSamplePos cEx (1 / 2, 1 / 2) 3 -
      cEx.lightPosition).length) := lightAttenuation_pos _
  have haw : 0 < ((kDotLight cEx (1 / 2, 1 / 2) 3 - kConeCosine cEx) /
      (1 - kConeCosine cEx)) ^ 2 := by
    apply pow_pos
    apply div_pos
    · linarith [cEx_inCone3]
    · rw [cEx_coneCosine]
      norm_num
  have hn1 : noiseLookup cEx.noiseTexture (kSamplePos cEx (1 / 2, 1 / 2) 3) 0.1 = 1 := rfl
  have hn2 : noiseLookup cEx.noiseTexture ((2 : ℝ) • kSamplePos cEx (1 / 2, 1 / 2) 3)
      0.05 = 1 := rfl
  rw [hn1, hn2, cEx_stepSize]
  have hD : (0 : ℝ) < DENSITY := by
    unfold DENSITY
    norm_num
  positivity

theorem cEx_density_pos : 0 < kDensity cEx (1 / 2, 1 / 2) := by
  have hn : ∀ p : ℝ × ℝ, 0 ≤ cEx.noiseTexture p := by
    intro p
    show (0 : ℝ) ≤ 1
    norm_num
  have hsum : kDensity cEx (1 / 2, 1 / 2) = ∑ j in Finset.range NUM_SAMPLES,
      (if kT cEx (1 / 2, 1 / 2) j ≤ kRayLength cEx (1 / 2, 1 / 2)
        then kTerm cEx (1 / 2, 1 / 2) (kT cEx (1 / 2, 1 / 2) j) else 0) := by
    unfold kDensity
    rw [kMarch_eq_sum]
    apply Finset.sum_congr rfl
    intro j _
    rw [Nat.zero_add]
  rw [hsum]
  have hmem : (1 : ℕ) ∈ Finset.range NUM_SAMPLES := by
    unfold NUM_SAMPLES
    exact Finset.mem_range.mpr (by norm_num)
  have hterm1 : 0 < (if kT cEx (1 / 2, 1 / 2) 1 ≤ kRayLength cEx (1 / 2, 1 / 2)
      then kTerm cEx (1 / 2, 1 / 2) (kT cEx (1 / 2, 1 / 2) 1) else 0) := by
    rw [if_pos (by rw [cEx_t1, cEx_rayLength]; norm_num), cEx_t1]
    exact cEx_term1_pos
  have hnonneg : ∀ j ∈ Finset.range NUM_SAMPLES,
      0 ≤ (if kT cEx (1 / 2, 1 / 2) j ≤ kRayLength cEx (1 / 2, 1 / 2)
        then kTerm cEx (1 / 2, 1 / 2) (kT cEx (1 / 2, 1 / 2) j) else 0) := by
    intro j _
    by_cases h : kT cEx (1 / 2, 1 / 2) j ≤ kRayLength cEx (1 / 2, 1 / 2)
    · rw [if_pos h]
      exact kTerm_nonneg cEx (1 / 2, 1 / 2) _ hn
    · rw [if_neg h]
  calc (0 : ℝ) < (if kT cEx (1 / 2, 1 / 2) 1 ≤ kRayLength cEx (1 / 2, 1 / 2)
      then kTerm cEx (1 / 2, 1 / 2) (kT cEx (1 / 2, 1 / 2) 1) else 0) := hterm1
    _ ≤ _ := Finset.single_le_sum hnonneg hmem

/-- Claim C6, counterexample to the sentinel part of the claim: in the
`cEx` configuration the ray-cone test returns the no-intersection sentinel
`MAX_DIST = 100`, but the reconstructed surface is `150 > 100` units away,
so the sentinel passes the guard `intersect < rayLength` and the kernel
adds strictly positive density to the red channel instead of contributing
nothing. -/
theorem c6_counterexample :
    kIntersect cEx (1 / 2, 1 / 2) = MAX_DIST ∧
    MAX_DIST < kRayLength cEx (1 / 2, 1 / 2) ∧
    cEx.inputBuffer (1 / 2, 1 / 2) 0 < main cEx (1 / 2, 1 / 2) 0 := by
  refine ⟨cEx_intersect, ?_, ?_⟩
  · rw [cEx_rayLength]
    unfold MAX_DIST
    norm_num
  · unfold main
    rw [if_pos cEx_guard, vec4_at0]
    have hlx : lightColor.x = 1 := rfl
    rw [hlx, one_mul]
    linarith [cEx_density_pos]

/- ### Screen-space radial scatter (god rays, `GodRaysEffect` fragment shader) -/

/-- The constant `MAX_SAMPLES = 120` of the god-rays shader. -/
def MAX_SAMPLES : ℕ := 120

/-- One tap of the god-rays kernel (loop lines 43-53): either the plain
buffer sample or the 5-tap center-weighted blur. -/
def blurTap (tInput : ℝ × ℝ → Fin 4 → ℝ) (texelSize : ℝ × ℝ) (uBlur : Bool)
    (tc : ℝ × ℝ) : Fin 4 → ℝ :=
  if uBlur then
    fun c => 0.4 * tInput tc c +
      0.15 * tInput (tc.1 + texelSize.1, tc.2) c +
      0.15 * tInput (tc.1 - texelSize.1, tc.2) c +
      0.15 * tInput (tc.1, tc.2 + texelSize.2) c +
      0.15 * tInput (tc.1, tc.2 - texelSize.2) c
  else tInput tc

/-- The accumulation loop of the god-rays kernel (lines 39-58): each
iteration steps `texCoord` by `-delta`, adds the tap weighted by
`illuminationDecay * fWeight`, and multiplies the decay by `fDecay`. -/
def godRaysLoop (tap : ℝ × ℝ → Fin 4 → ℝ) (texCoord delta : ℝ × ℝ)
    (illum weight decay : ℝ) : ℕ → Fin 4 → ℝ
  | 0 => fun _ => 0
  | n + 1 => fun c =>
      illum * weight * tap (texCoord.1 - delta.1, texCoord.2 - delta.2) c +
        godRaysLoop tap (texCoord.1 - delta.1, texCoord.2 - delta.2) delta
          (illum * decay) weight decay n c

/-- The entry point `mainImage` of the god-rays shader (lines 32-61): walks from the pixel
toward the light's screen position for `min(uSamples, MAX_SAMPLES)` steps of
size `(uv - lightPosition) / uSamples * fDensity`, then scales by
`fExposure`. -/
def godRaysImage (tInput : ℝ × ℝ → Fin 4 → ℝ) (texelSize lightPosition : ℝ × ℝ)
    (fExposure fDecay fDensity fWeight : ℝ) (uSamples : ℕ) (uBlur : Bool)
    (uv : ℝ × ℝ) : Fin 4 → ℝ :=
  fun c => fExposure *
    godRaysLoop (blurTap tInput texelSize uBlur) uv
      ((uv.1 - lightPosition.1) * (1 / (uSamples : ℝ) * fDensity),
       (uv.2 - lightPosition.2) * (1 / (uSamples : ℝ) * fDensity))
      1 fWeight fDecay (min uSamples MAX_SAMPLES) c

theorem blurTap_nonneg (tInput : ℝ × ℝ → Fin 4 → ℝ) (texelSize : ℝ × ℝ)
    (uBlur : Bool) (hin : ∀ p c, 0 ≤ tInput p c) (tc : ℝ × ℝ) (c : Fin 4) :
    0 ≤ blurTap tInput texelSize uBlur tc c := by
  unfold blurTap
  cases uBlur
  · exact hin tc c
  · simp only [if_pos]
    have h1 := hin tc c
    have h2 := hin (tc.1 + texelSize.1, tc.2) c
    have h3 := hin (tc.1 - texelSize.1, tc.2) c
    have h4 := hin (tc.1, tc.2 + texelSize.2) c
    have h5 := hin (tc.1, tc.2 - texelSize.2) c
    norm_num
    linarith

theorem godRaysLoop_mono (tap : ℝ × ℝ → Fin 4 → ℝ)
    (htap : ∀ p c, 0 ≤ tap p c) (delta : ℝ × ℝ) (weight weight' decay decay' : ℝ)
    (hw0 : 0 ≤ weight) (hw : weight ≤ weight') (hd0 : 0 ≤ decay) (hd : decay ≤ decay') :
    ∀ (n : ℕ) (texCoord : ℝ × ℝ) (illum illum' : ℝ), 0 ≤ illum → illum ≤ illum' →
      ∀ c, godRaysLoop tap texCoord delta illum weight decay n c ≤
        godRaysLoop tap texCoord delta illum' weight' decay' n c := by
  intro n
  induction n with
  | zero => intro texCoord illum illum' _ _ c; exact le_refl _
  | succ m ih =>
      intro texCoord illum illum' hi0 hi c
      show illum * weight * tap _ c + godRaysLoop _ _ _ (illum * decay) _ _ m c ≤
        illum' * weight' * tap _ c + godRaysLoop _ _ _ (illum' * decay') _ _ m c
      have hfac : illum * weight ≤ illum' * weight' :=
        mul_le_mul hi hw hw0 (le_trans hi0 hi)
      have hterm : illum * weight * tap (texCoord.1 - delta.1, texCoord.2 - delta.2) c ≤
          illum' * weight' * tap (texCoord.1 - delta.1, texCoord.2 - delta.2) c :=
        mul_le_mul_of_nonneg_right hfac (htap _ c)
      have hrec := ih (texCoord.1 - delta.1, texCoord.2 - delta.2)
        (illum * decay) (illum' * decay')
        (mul_nonneg hi0 hd0)
        (mul_le_mul hi hd hd0 (le_trans hi0 hi)) c
      linarith

/- ### Claim C7 -/

/-- Claim C7, confirmed: for a fixed non-negative input buffer, fixed light
screen position, sample count, density, exposure and blur setting, every
component of the god-rays output is monotonically non-decreasing in the
weight parameter and in the decay parameter (each sample being weighted by
`weight * decay ^ i` and the sum scaled by `exposure`). -/
theorem c7_godrays_monotone (tInput : ℝ × ℝ → Fin 4 → ℝ)
    (texelSize lightPosition : ℝ × ℝ) (fExposure : ℝ) (uSamples : ℕ) (uBlur : Bool)
    (uv : ℝ × ℝ) (c : Fin 4) (weight weight' decay decay' : ℝ)
    (hin : ∀ p c₀, 0 ≤ tInput p c₀) (hexp : 0 ≤ fExposure) (fDensity : ℝ)
    (hw0 : 0 ≤ weight) (hw : weight ≤ weight') (hd0 : 0 ≤ decay) (hd : decay ≤ decay') :
    godRaysImage tInput texelSize lightPosition fExposure decay fDensity weight
        uSamples uBlur uv c ≤
      godRaysImage tInput texelSize lightPosition fExposure decay' fDensity weight'
        uSamples uBlur uv c := by
  unfold godRaysImage
  apply mul_le_mul_of_nonneg_left _ hexp
  exact godRaysLoop_mono (blurTap tInput texelSize uBlur)
    (blurTap_nonneg tInput texelSize uBlur hin) _ weight weight' decay decay'
    hw0 hw hd0 hd _ uv 1 1 (by norm_num) (le_refl 1) c

/-- Claim C7, witness: the monotonicity theorem applied with a constant-`1`
buffer, two samples, weight `0.3 ≤ 0.4` and decay `0.5 ≤ 1`. -/
theorem c7_witness :
    (0 : ℝ) ≤ 0.3 ∧ (0.3 : ℝ) ≤ 0.4 ∧ (0 : ℝ) ≤ 0.5 ∧ (0.5 : ℝ) ≤ 1 ∧
    godRaysImage (fun _ _ => 1) (0, 0) (0, 0) 1 0.5 0.5 0.3 2 false (1, 1) 0 ≤
      godRaysImage (fun _ _ => 1) (0, 0) (0, 0) 1 1 0.5 0.4 2 false (1, 1) 0 := by
  refine ⟨by norm_num, by norm_num, by norm_num, by norm_num, ?_⟩
  exact c7_godrays_monotone (fun _ _ => 1) (0, 0) (0, 0) 1 2 false (1, 1) 0
    0.3 0.4 0.5 1 (fun _ _ => by norm_num) (by norm_num) 0.5
    (by norm_num) (by norm_num) (by norm_num) (by norm_num)
